import Mathlib

/-!
# Verification of the Monte-Carlo π animation (`src/main.py`)

This file gives a shallow embedding of the program in `src/main.py` and
proves properties of it.

Modelling conventions:

* Random draws (`np.random.uniform(-1, 1, n)`) are modelled as two ambient
  streams `xs ys : ℕ → ℚ`: the i-th coordinate ever drawn is `xs i` / `ys i`.
  Every theorem about the sampling loop is universally quantified over the
  streams, so nothing depends on the actual distribution.  Rationals stand in
  for the Python floats; none of the proved properties depends on rounding.
* The mutable variables of `monte_carlo_pi_animation`
  (`running`, `inside_total`, `samples_done`, `disp_x`, `disp_y`,
  `disp_colors`, `point_queue`) together with the widget visibility flags are
  collected in the structure `FullState`.
* The matplotlib event loop is modelled by an explicit schedule of events
  (`List Ev`): each `plt.pause` consumes at most one pending event, an event
  being a button-callback invocation (`start`/`stop`/`resume`/`restart`), a
  window closure, or `idle` (a pause during which the user does nothing).
* The `while True:` loop is `mcLoop`, written with explicit fuel; it returns
  the final state, the unconsumed schedule, the exit reason, and a per-tick
  log recording (a) the batch size when a batch was produced on that tick and
  (b) the value of `samples_done` at the moment `pi_estimate` is computed.
-/

attribute [local semireducible] Rat.mul Rat.add

/-- The point colour used for the scatter plot: `'blue' if inside[i] else 'red'`. -/
inductive Color where
  | blue
  | red
  deriving DecidableEq, Repr

/-- Events processed by a `plt.pause`: one of the four button callbacks,
the window being closed, or nothing happening during the pause. -/
inductive Ev where
  | start
  | stop
  | resume
  | restart
  | closeWindow
  | idle
  deriving DecidableEq, Repr

/-- How the `while True:` loop in `monte_carlo_pi_animation` terminates:
via the `samples_done >= num_samples` branch (line 121–124) or via a
`plt.fignum_exists` check failing (lines 117–118 and 156–157). -/
inductive ExitReason where
  | finished
  | windowClosed
  deriving DecidableEq, Repr

/-- `dist_sq = x**2 + y**2` (line 130); squaring written as `x * x`. -/
def dist_sq (x y : ℚ) : ℚ := x * x + y * y

/-- `inside = dist_sq <= 1` (line 131), for a single point. -/
def insidePoint (x y : ℚ) : Bool := dist_sq x y ≤ 1

/-- The mutable state of `monte_carlo_pi_animation`: the counters and lists
of lines 21–25 and 112, the `running` flag (line 23), and the visibility
flags of the widgets (lines 36–42, 52, 57, 62, 65–66). -/
structure FullState where
  running : Bool
  inside_total : Nat
  samples_done : Nat
  disp_x : List ℚ
  disp_y : List ℚ
  disp_colors : List Color
  point_queue : List (ℚ × ℚ × Color)
  start_visible : Bool
  stop_visible : Bool
  resume_visible : Bool
  restart_visible : Bool
  circle_visible : Bool
  axes_visible : Bool

/-- The state right before the `while True:` loop starts (lines 21–25,
36–42, 52, 57, 62, 65–66, 112): nothing sampled, display empty, paused,
only the START button visible, circle and axes hidden. -/
def initState : FullState :=
  { running := false
    inside_total := 0
    samples_done := 0
    disp_x := []
    disp_y := []
    disp_colors := []
    point_queue := []
    start_visible := true
    stop_visible := false
    resume_visible := false
    restart_visible := false
    circle_visible := false
    axes_visible := false }

/-- `def stop(event)` (lines 72–73). -/
def stopHandler (s : FullState) : FullState := { s with running := false }

/-- `def resume(event)` (lines 75–76). -/
def resumeHandler (s : FullState) : FullState := { s with running := true }

/-- `def restart(event)` (lines 78–94): every per-run datum is replaced by
the values of `reset_data()` (line 69–70), the run is paused, the START
button is shown again and everything else is hidden. -/
def restartHandler (s : FullState) : FullState :=
  { s with
    inside_total := 0
    samples_done := 0
    disp_x := []
    disp_y := []
    disp_colors := []
    point_queue := []
    running := false
    start_visible := true
    stop_visible := false
    resume_visible := false
    restart_visible := false
    circle_visible := false
    axes_visible := false }

/-- `def start(event)` (lines 96–105). -/
def startHandler (s : FullState) : FullState :=
  { s with
    running := true
    start_visible := false
    stop_visible := true
    resume_visible := true
    restart_visible := true
    circle_visible := true
    axes_visible := true }

/-- Effect of one event processed during a `plt.pause`; the boolean is true
when the window was closed (so the next `plt.fignum_exists` check fails). -/
def applyEv (s : FullState) : Ev → FullState × Bool
  | .start => (startHandler s, false)
  | .stop => (stopHandler s, false)
  | .resume => (resumeHandler s, false)
  | .restart => (restartHandler s, false)
  | .closeWindow => (s, true)
  | .idle => (s, false)

/-- Structural-recursion engine for `pyRange`: one fuel unit per emitted
element.  `fuel = stop` always suffices when `1 ≤ step`, because the emitted
values are distinct naturals below `stop`. -/
def pyRangeAux (step : Nat) : Nat → Nat → Nat → List Nat
  | 0, _, _ => []
  | fuel + 1, start, stop =>
    if start < stop then start :: pyRangeAux step fuel (start + step) stop else []

/-- Python's `range(start, stop, step)` for a positive `step`
(`step = 0` is mapped to the empty list; the program only ever uses
`step = max(1, ...) ≥ 1`). -/
def pyRange (start stop step : Nat) : List Nat :=
  if step = 0 then [] else pyRangeAux step stop start stop

/-- `current_batch = min(batch_size, num_samples - samples_done)` (line 127). -/
def currentBatch (num_samples batch_size : Nat) (s : FullState) : Nat :=
  min batch_size (num_samples - s.samples_done)

/-- `np.sum(inside)` for the batch of `c` points whose coordinates are
`xs (offset + i)`, `ys (offset + i)` for `i < c` (lines 128–132):
the number of indices of the full batch whose point lies inside the circle. -/
def batchInsideSum (xs ys : Nat → ℚ) (offset c : Nat) : Nat :=
  ((List.range c).filter (fun i => insidePoint (xs (offset + i)) (ys (offset + i)))).length

/-- The queue entry `(x[i], y[i], color)` built at lines 137–138. -/
def batchEntry (xs ys : Nat → ℚ) (offset i : Nat) : ℚ × ℚ × Color :=
  (xs (offset + i), ys (offset + i),
    if insidePoint (xs (offset + i)) (ys (offset + i)) then Color.blue else Color.red)

/-- The subsample appended to `point_queue` by the loop at lines 135–138:
`for i in range(0, current_batch, step)` with `step = max(1, current_batch // 200)`. -/
def batchSubsample (xs ys : Nat → ℚ) (offset c : Nat) : List (ℚ × ℚ × Color) :=
  (pyRange 0 c (max 1 (c / 200))).map (batchEntry xs ys offset)

/-- The batch-production block, lines 127–138: draw
`current_batch = min(batch_size, num_samples - samples_done)` points,
add the inside count of the FULL batch to `inside_total`, add the full batch
size to `samples_done`, and append the stride subsample to `point_queue`. -/
def produceBatch (xs ys : Nat → ℚ) (num_samples batch_size : Nat) (s : FullState) :
    FullState :=
  let c := currentBatch num_samples batch_size s
  { s with
    inside_total := s.inside_total + batchInsideSum xs ys s.samples_done c
    samples_done := s.samples_done + c
    point_queue := s.point_queue ++ batchSubsample xs ys s.samples_done c }

/-- The drain block, lines 140–144: pop `min(100, len(point_queue))` entries
from the front of the queue and append their coordinates and colours to the
display lists. -/
def drain (s : FullState) : FullState :=
  let k := min 100 s.point_queue.length
  { s with
    point_queue := s.point_queue.drop k
    disp_x := s.disp_x ++ (s.point_queue.take k).map (fun e => e.1)
    disp_y := s.disp_y ++ (s.point_queue.take k).map (fun e => e.2.1)
    disp_colors := s.disp_colors ++ (s.point_queue.take k).map (fun e => e.2.2) }

/-- One pass through lines 126–153 of the running branch: produce a batch if
the queue is empty (line 126), then drain up to 100 queued points. -/
def runningTick (xs ys : Nat → ℚ) (num_samples batch_size : Nat) (s : FullState) :
    FullState :=
  drain (if s.point_queue.length = 0 then produceBatch xs ys num_samples batch_size s else s)

/-- Result of running the `while True:` loop for a bounded number of
iterations: either the fuel ran out mid-run, or the loop exited (`break`). -/
inductive LoopOutcome where
  | outOfFuel (s : FullState) (sched : List Ev)
  | exited (s : FullState) (sched : List Ev) (reason : ExitReason)

/-- The program state when the loop stopped (or when fuel ran out). -/
def LoopOutcome.finalState : LoopOutcome → FullState
  | .outOfFuel s _ => s
  | .exited s _ _ => s

/-- The events the user had scheduled but the loop never processed. -/
def LoopOutcome.rest : LoopOutcome → List Ev
  | .outOfFuel _ sched => sched
  | .exited _ sched _ => sched

/-- The exit reason, `none` when the fuel ran out before the loop exited. -/
def LoopOutcome.reason : LoopOutcome → Option ExitReason
  | .outOfFuel _ _ => none
  | .exited _ _ r => some r

/-- The `while True:` loop of `monte_carlo_pi_animation` (lines 114–157),
with explicit fuel.  Per iteration:

* lines 115–119: if not running, `plt.pause(0.1)` processes at most one
  pending event, the loop breaks if the window was closed, else `continue`;
* lines 121–124: if `samples_done >= num_samples`, set `running = False`
  and `break` (the code then falls through to `plt.close(fig)`);
* lines 126–153: `runningTick` (batch production if the queue is empty,
  then draining); `pi_estimate` is computed at line 149 from the state the
  tick produced — the log records `(batch produced on this tick if any,
  samples_done at the moment the estimate is computed)`;
* lines 154–157: `plt.pause(0.001)` processes at most one pending event and
  the loop breaks if the window was closed. -/
def mcLoop (xs ys : Nat → ℚ) (num_samples batch_size : Nat) :
    Nat → FullState → List Ev → LoopOutcome × List (Option Nat × Nat)
  | 0, s, sched => (.outOfFuel s sched, [])
  | fuel + 1, s, sched =>
    if s.running = false then
      match sched with
      | [] => mcLoop xs ys num_samples batch_size fuel s []
      | e :: rest =>
        let p := applyEv s e
        if p.2 then (.exited p.1 rest .windowClosed, [])
        else mcLoop xs ys num_samples batch_size fuel p.1 rest
    else if num_samples ≤ s.samples_done then
      (.exited { s with running := false } sched .finished, [])
    else
      let produced : Option Nat :=
        if s.point_queue.length = 0 then some (currentBatch num_samples batch_size s)
        else none
      let t := runningTick xs ys num_samples batch_size s
      match sched with
      | [] =>
        let r := mcLoop xs ys num_samples batch_size fuel t []
        (r.1, (produced, t.samples_done) :: r.2)
      | e :: rest =>
        let p := applyEv t e
        if p.2 then (.exited p.1 rest .windowClosed, [(produced, t.samples_done)])
        else
          let r := mcLoop xs ys num_samples batch_size fuel p.1 rest
          (r.1, (produced, t.samples_done) :: r.2)

/-- A concrete coordinate stream (all points at the origin), used to
instantiate universally-quantified theorems on concrete runs. -/
def zeroStream : Nat → ℚ := fun _ => 0

/-- The batch sizes recorded in a loop log. -/
def batchSizes (log : List (Option Nat × Nat)) : List Nat :=
  log.filterMap (fun e => e.1)

/-- The values of `samples_done` recorded on exactly the ticks that produced
a batch. -/
def samplesAfterBatch (log : List (Option Nat × Nat)) : List Nat :=
  log.filterMap (fun e => match e.1 with | some _ => some e.2 | none => none)

/-!
## A counting abstraction of the loop

`CountState` keeps only the sizes that drive the control flow
(`running`, `samples_done`, queue length, display length); `countLoop` is
the image of `mcLoop` under this projection.  The refinement lemma
`countLoop_proj` lets concrete control-flow scenarios be computed by `decide`
on plain naturals and transported to `mcLoop` for every coordinate stream. -/

/-- The control-flow projection of `FullState`. -/
structure CountState where
  running : Bool
  samples_done : Nat
  queue_len : Nat
  disp_len : Nat
  deriving DecidableEq, Repr

/-- Project the full program state onto the counting state. -/
def proj (s : FullState) : CountState :=
  ⟨s.running, s.samples_done, s.point_queue.length, s.disp_x.length⟩

/-- Image of `applyEv` under `proj`. -/
def applyEvC (c : CountState) : Ev → CountState × Bool
  | .start => ({ c with running := true }, false)
  | .stop => ({ c with running := false }, false)
  | .resume => ({ c with running := true }, false)
  | .restart => (⟨false, 0, 0, 0⟩, false)
  | .closeWindow => (c, true)
  | .idle => (c, false)

/-- Image of `produceBatch` under `proj`. -/
def countProduce (num_samples batch_size : Nat) (c : CountState) : CountState :=
  let cb := min batch_size (num_samples - c.samples_done)
  { c with
    samples_done := c.samples_done + cb
    queue_len := c.queue_len + (cb + max 1 (cb / 200) - 1) / max 1 (cb / 200) }

/-- Image of `drain` under `proj`. -/
def countDrain (c : CountState) : CountState :=
  let k := min 100 c.queue_len
  { c with queue_len := c.queue_len - k, disp_len := c.disp_len + k }

/-- Image of `runningTick` under `proj`. -/
def countTick (num_samples batch_size : Nat) (c : CountState) : CountState :=
  countDrain (if c.queue_len = 0 then countProduce num_samples batch_size c else c)

/-- Image of `LoopOutcome` under `proj`. -/
inductive CountOutcome where
  | outOfFuel (c : CountState) (sched : List Ev)
  | exited (c : CountState) (sched : List Ev) (reason : ExitReason)
  deriving DecidableEq, Repr

/-- Counting analogue of `LoopOutcome.finalState`. -/
def CountOutcome.cstate : CountOutcome → CountState
  | .outOfFuel c _ => c
  | .exited c _ _ => c

/-- Counting analogue of `LoopOutcome.rest`. -/
def CountOutcome.crest : CountOutcome → List Ev
  | .outOfFuel _ sched => sched
  | .exited _ sched _ => sched

/-- Counting analogue of `LoopOutcome.reason`. -/
def CountOutcome.creason : CountOutcome → Option ExitReason
  | .outOfFuel _ _ => none
  | .exited _ _ r => some r

/-- Project a loop outcome onto the counting world. -/
def projOutcome : LoopOutcome → CountOutcome
  | .outOfFuel s sched => .outOfFuel (proj s) sched
  | .exited s sched r => .exited (proj s) sched r

/-- Image of `mcLoop` under `proj`, computable by `decide` on naturals. -/
def countLoop (num_samples batch_size : Nat) :
    Nat → CountState → List Ev → CountOutcome × List (Option Nat × Nat)
  | 0, c, sched => (.outOfFuel c sched, [])
  | fuel + 1, c, sched =>
    if c.running = false then
      match sched with
      | [] => countLoop num_samples batch_size fuel c []
      | e :: rest =>
        let p := applyEvC c e
        if p.2 then (.exited p.1 rest .windowClosed, [])
        else countLoop num_samples batch_size fuel p.1 rest
    else if num_samples ≤ c.samples_done then
      (.exited { c with running := false } sched .finished, [])
    else
      let produced : Option Nat :=
        if c.queue_len = 0 then some (min batch_size (num_samples - c.samples_done))
        else none
      let t := countTick num_samples batch_size c
      match sched with
      | [] =>
        let r := countLoop num_samples batch_size fuel t []
        (r.1, (produced, t.samples_done) :: r.2)
      | e :: rest =>
        let p := applyEvC t e
        if p.2 then (.exited p.1 rest .windowClosed, [(produced, t.samples_done)])
        else
          let r := countLoop num_samples batch_size fuel p.1 rest
          (r.1, (produced, t.samples_done) :: r.2)

/-!
## The command-line boundary (`main`, lines 161–176)
-/

/-- The batch-size resolution at lines 10–19 of
`monte_carlo_pi_animation`: `None` selects the size from the table keyed on
the total number of samples, an explicit argument is used as given. -/
def resolveBatchSize (num_samples : Nat) (batch_size : Option Nat) : Nat :=
  match batch_size with
  | none =>
    if num_samples ≤ 1000000 then 10000
    else if num_samples ≤ 10000000 then 100000
    else if num_samples ≤ 100000000 then 1000000
    else 5000000
  | some b => b

/-- The whitespace characters Python's `int(str)` ignores at both ends. -/
def pyWhitespace (c : Char) : Bool :=
  c = ' ' || c = '\t' || c = '\n' || c = '\r' || c = '\x0b' || c = '\x0c'

/-- Strip leading and trailing whitespace, as `int(str)` does. -/
def pyStrip (l : List Char) : List Char :=
  ((l.dropWhile pyWhitespace).reverse.dropWhile pyWhitespace).reverse

/-- The numeric value of a list of decimal digits. -/
def digitsVal (l : List Char) : Nat :=
  l.foldl (fun acc c => acc * 10 + (c.toNat - Char.toNat '0')) 0

/-- Python's `int(str)`: optional surrounding whitespace, an optional sign,
then a nonempty run of decimal digits; anything else raises `ValueError`,
modelled as `none`. -/
def pyInt? (s : String) : Option Int :=
  match pyStrip s.toList with
  | [] => none
  | '-' :: rest =>
    if !rest.isEmpty && rest.all Char.isDigit then some (-(digitsVal rest : Int)) else none
  | '+' :: rest =>
    if !rest.isEmpty && rest.all Char.isDigit then some ((digitsVal rest : Int)) else none
  | l => if l.all Char.isDigit then some ((digitsVal l : Int)) else none

/-- `args.samples.replace(',', '').replace('_', '')` (line 169). -/
def stripSeparators (s : String) : String :=
  (s.toList.filter (fun c => c != ',' && c != '_')).asString

/-- What `main` does after parsing the arguments: either it prints the
error message and returns without starting a run, or it calls
`monte_carlo_pi_animation` with the parsed positive sample count and the
optional batch override. -/
inductive MainResult where
  | invalid (message : String)
  | run (samples : Nat) (batch : Option Nat)
  deriving DecidableEq, Repr

/-- Lines 168–176 of `main`: strip separators, parse with `int(...)`,
reject non-numeric input and values `<= 0` with the exact message
`"Invalid number of samples provided."`, otherwise start the run. -/
def main_model (samplesArg : String) (batchArg : Option Nat) : MainResult :=
  match pyInt? (stripSeparators samplesArg) with
  | none => .invalid "Invalid number of samples provided."
  | some z =>
    if z ≤ 0 then .invalid "Invalid number of samples provided."
    else .run z.toNat batchArg

/-!
## Invariant predicates and concrete instantiation states
-/

/-- The statistics invariant from §3 of the spec:
`0 ≤ inside_total ≤ samples_done ≤ target_samples`. -/
def statsInv (num_samples : Nat) (s : FullState) : Prop :=
  0 ≤ s.inside_total ∧ s.inside_total ≤ s.samples_done ∧ s.samples_done ≤ num_samples

/-- Whenever the display queue is nonempty, at least one sample has been
accumulated (each enqueued point comes from a produced batch). -/
def queueInv (s : FullState) : Prop :=
  s.point_queue ≠ [] → 1 ≤ s.samples_done

/-- The widget configuration of the `Idle` controller state: paused, only
the START button visible, circle and axes hidden.  It is the configuration
`initState` starts in and `restartHandler` restores. -/
def isIdleConfig (s : FullState) : Prop :=
  s.running = false ∧ s.start_visible = true ∧ s.stop_visible = false ∧
    s.resume_visible = false ∧ s.restart_visible = false ∧
    s.circle_visible = false ∧ s.axes_visible = false

/-- A concrete mid-run state (running, seven samples done, one queued
point), used to instantiate theorems that carry hypotheses. -/
def doneState : FullState :=
  { startHandler initState with
    samples_done := 7
    inside_total := 3
    point_queue := [(0, 0, Color.blue)] }

/-!
## Lemmas about `pyRange`
-/

lemma pyRangeAux_length (step : Nat) (hs : 1 ≤ step) :
    ∀ (fuel start stop : Nat), stop - start ≤ fuel →
      (pyRangeAux step fuel start stop).length = (stop - start + step - 1) / step := by
  intro fuel
  induction fuel with
  | zero =>
    intro start stop h
    have h0 : stop - start = 0 := Nat.le_zero.mp h
    simp only [pyRangeAux, List.length_nil, h0]
    exact (Nat.div_eq_of_lt (by omega)).symm
  | succ fuel ih =>
    intro start stop h
    rw [pyRangeAux]
    by_cases hlt : start < stop
    · simp only [if_pos hlt, List.length_cons]
      rw [ih (start + step) stop (by omega)]
      by_cases hc : stop - start ≤ step
      · have h1 : stop - (start + step) + step - 1 = step - 1 := by omega
        have h2 : (step - 1) / step = 0 := Nat.div_eq_of_lt (by omega)
        have h3 : (stop - start + step - 1) / step = 1 := by
          apply Nat.div_eq_of_lt_le <;> omega
        rw [h1, h2, h3]
      · have h1 : stop - (start + step) + step - 1 = stop - start - 1 := by omega
        have h2 : stop - start + step - 1 = stop - start - 1 + step := by omega
        rw [h1, h2, Nat.add_div_right _ hs]
    · simp only [if_neg hlt, List.length_nil]
      have h0 : stop - start = 0 := by omega
      rw [h0]
      exact (Nat.div_eq_of_lt (by omega)).symm

lemma pyRangeAux_sublist (step : Nat) (hs : 1 ≤ step) :
    ∀ (fuel start stop : Nat), stop - start ≤ fuel →
      List.Sublist (pyRangeAux step fuel start stop) ((List.range stop).drop start) := by
  intro fuel
  induction fuel with
  | zero =>
    intro start stop _
    simp [pyRangeAux]
  | succ fuel ih =>
    intro start stop h
    rw [pyRangeAux]
    by_cases hlt : start < stop
    · simp only [if_pos hlt]
      have hdrop : (List.range stop).drop start
          = start :: (List.range stop).drop (start + 1) := by
        rw [List.drop_eq_getElem_cons (by simpa using hlt)]
        simp
      rw [hdrop]
      apply List.Sublist.cons₂
      have h1 : List.Sublist (pyRangeAux step fuel (start + step) stop)
          ((List.range stop).drop (start + step)) := ih (start + step) stop (by omega)
      have h2 : List.Sublist ((List.range stop).drop (start + step))
          ((List.range stop).drop (start + 1)) := by
        have heq : (List.range stop).drop (start + step)
            = ((List.range stop).drop (start + 1)).drop (step - 1) := by
          rw [List.drop_drop]
          congr 1
          omega
        rw [heq]
        exact List.drop_sublist _ _
      exact h1.trans h2
    · simp [if_neg hlt]

lemma pyRange_length (start stop step : Nat) (hs : 1 ≤ step) :
    (pyRange start stop step).length = (stop - start + step - 1) / step := by
  rw [pyRange, if_neg (by omega)]
  exact pyRangeAux_length step hs stop start stop (by omega)

lemma pyRange_sublist (start stop step : Nat) (hs : 1 ≤ step) :
    List.Sublist (pyRange start stop step) ((List.range stop).drop start) := by
  rw [pyRange, if_neg (by omega)]
  exact pyRangeAux_sublist step hs stop start stop (by omega)

/-- The number of points the subsampling loop enqueues from a batch of `c`
points is `ceil(c / step)` with `step = max(1, c // 200)`. -/
lemma batchSubsample_length (xs ys : Nat → ℚ) (offset c : Nat) :
    (batchSubsample xs ys offset c).length
      = (c + max 1 (c / 200) - 1) / max 1 (c / 200) := by
  rw [batchSubsample, List.length_map,
    pyRange_length 0 c (max 1 (c / 200)) (Nat.le_max_left 1 _)]
  simp

/-- The subsample is a sublist of the full batch in its original order. -/
lemma batchSubsample_sublist (xs ys : Nat → ℚ) (offset c : Nat) :
    List.Sublist (batchSubsample xs ys offset c) ((List.range c).map (batchEntry xs ys offset)) := by
  rw [batchSubsample]
  apply List.Sublist.map
  have h := pyRange_sublist 0 c (max 1 (c / 200)) (Nat.le_max_left 1 _)
  simpa using h

/-!
## The refinement between `mcLoop` and `countLoop`
-/

lemma proj_applyEv (s : FullState) (e : Ev) :
    applyEvC (proj s) e = ((proj (applyEv s e).1), (applyEv s e).2) := by
  cases e <;> rfl

lemma proj_drain (s : FullState) : proj (drain s) = countDrain (proj s) := by
  simp only [proj, drain, countDrain, List.length_drop, List.length_append,
    List.length_map, List.length_take, CountState.mk.injEq, true_and]
  omega

lemma proj_produce (xs ys : Nat → ℚ) (num_samples batch_size : Nat) (s : FullState) :
    proj (produceBatch xs ys num_samples batch_size s)
      = countProduce num_samples batch_size (proj s) := by
  simp only [proj, produceBatch, countProduce, currentBatch, List.length_append,
    batchSubsample_length, CountState.mk.injEq]

lemma proj_runningTick (xs ys : Nat → ℚ) (num_samples batch_size : Nat) (s : FullState) :
    proj (runningTick xs ys num_samples batch_size s)
      = countTick num_samples batch_size (proj s) := by
  rw [runningTick, countTick]
  by_cases h : s.point_queue.length = 0
  · rw [if_pos h, if_pos (show (proj s).queue_len = 0 from h), proj_drain, proj_produce]
  · rw [if_neg h, if_neg (show ¬(proj s).queue_len = 0 from h), proj_drain]

/-- `countLoop` is exactly the image of `mcLoop` under `proj`: same control
flow, same unconsumed schedule, same exit reason and the same tick log, for
every coordinate stream. -/
lemma countLoop_proj (xs ys : Nat → ℚ) (num_samples batch_size : Nat) :
    ∀ (fuel : Nat) (s : FullState) (sched : List Ev),
      countLoop num_samples batch_size fuel (proj s) sched
        = (projOutcome (mcLoop xs ys num_samples batch_size fuel s sched).1,
            (mcLoop xs ys num_samples batch_size fuel s sched).2) := by
  intro fuel
  induction fuel with
  | zero => intro s sched; rfl
  | succ fuel ih =>
    intro s sched
    rw [mcLoop.eq_def, countLoop.eq_def]
    simp only []
    by_cases hr : s.running = false
    · rw [if_pos (show (proj s).running = false from hr), if_pos hr]
      cases sched with
      | nil => exact ih s []
      | cons e rest =>
        simp only [proj_applyEv]
        by_cases hc : (applyEv s e).2
        · simp only [if_pos hc, projOutcome]
        · simp only [if_neg hc, ih]
    · rw [if_neg (show ¬(proj s).running = false from hr), if_neg hr]
      by_cases hd : num_samples ≤ s.samples_done
      · rw [if_pos (show num_samples ≤ (proj s).samples_done from hd), if_pos hd]
        rfl
      · rw [if_neg (show ¬num_samples ≤ (proj s).samples_done from hd), if_neg hd]
        have hprod :
            (if (proj s).queue_len = 0 then
                some (min batch_size (num_samples - (proj s).samples_done))
              else none)
            = (if s.point_queue.length = 0 then
                some (currentBatch num_samples batch_size s) else none) := rfl
        cases sched with
        | nil =>
          simp only [hprod, ← proj_runningTick xs ys num_samples batch_size s, ih]
          rfl
        | cons e rest =>
          simp only [hprod, ← proj_runningTick xs ys num_samples batch_size s, proj_applyEv]
          by_cases hc : (applyEv (runningTick xs ys num_samples batch_size s) e).2
          · simp only [if_pos hc, projOutcome]
            rfl
          · simp only [if_neg hc, ih]
            rfl

lemma projOutcome_creason (o : LoopOutcome) : (projOutcome o).creason = o.reason := by
  cases o <;> rfl

lemma projOutcome_crest (o : LoopOutcome) : (projOutcome o).crest = o.rest := by
  cases o <;> rfl

lemma projOutcome_cstate (o : LoopOutcome) : (projOutcome o).cstate = proj o.finalState := by
  cases o <;> rfl

lemma mcLoop_log_eq (xs ys : Nat → ℚ) (num_samples batch_size fuel : Nat)
    (s : FullState) (sched : List Ev) :
    (mcLoop xs ys num_samples batch_size fuel s sched).2
      = (countLoop num_samples batch_size fuel (proj s) sched).2 := by
  rw [countLoop_proj xs ys num_samples batch_size fuel s sched]

lemma mcLoop_reason_eq (xs ys : Nat → ℚ) (num_samples batch_size fuel : Nat)
    (s : FullState) (sched : List Ev) :
    (mcLoop xs ys num_samples batch_size fuel s sched).1.reason
      = (countLoop num_samples batch_size fuel (proj s) sched).1.creason := by
  rw [countLoop_proj xs ys num_samples batch_size fuel s sched, projOutcome_creason]

lemma mcLoop_rest_eq (xs ys : Nat → ℚ) (num_samples batch_size fuel : Nat)
    (s : FullState) (sched : List Ev) :
    (mcLoop xs ys num_samples batch_size fuel s sched).1.rest
      = (countLoop num_samples batch_size fuel (proj s) sched).1.crest := by
  rw [countLoop_proj xs ys num_samples batch_size fuel s sched, projOutcome_crest]

lemma mcLoop_samples_eq (xs ys : Nat → ℚ) (num_samples batch_size fuel : Nat)
    (s : FullState) (sched : List Ev) :
    (mcLoop xs ys num_samples batch_size fuel s sched).1.finalState.samples_done
      = (countLoop num_samples batch_size fuel (proj s) sched).1.cstate.samples_done := by
  rw [countLoop_proj xs ys num_samples batch_size fuel s sched, projOutcome_cstate]
  rfl

lemma mcLoop_queue_len_eq (xs ys : Nat → ℚ) (num_samples batch_size fuel : Nat)
    (s : FullState) (sched : List Ev) :
    (mcLoop xs ys num_samples batch_size fuel s sched).1.finalState.point_queue.length
      = (countLoop num_samples batch_size fuel (proj s) sched).1.cstate.queue_len := by
  rw [countLoop_proj xs ys num_samples batch_size fuel s sched, projOutcome_cstate]
  rfl

lemma mcLoop_disp_len_eq (xs ys : Nat → ℚ) (num_samples batch_size fuel : Nat)
    (s : FullState) (sched : List Ev) :
    (mcLoop xs ys num_samples batch_size fuel s sched).1.finalState.disp_x.length
      = (countLoop num_samples batch_size fuel (proj s) sched).1.cstate.disp_len := by
  rw [countLoop_proj xs ys num_samples batch_size fuel s sched, projOutcome_cstate]
  rfl

/-!
## Invariant preservation
-/

lemma batchInsideSum_le (xs ys : Nat → ℚ) (offset c : Nat) :
    batchInsideSum xs ys offset c ≤ c := by
  calc ((List.range c).filter
          (fun i => insidePoint (xs (offset + i)) (ys (offset + i)))).length
      ≤ (List.range c).length := List.length_filter_le _ _
    _ = c := List.length_range c

lemma applyEv_statsInv (num_samples : Nat) (s : FullState) (e : Ev)
    (h : statsInv num_samples s) : statsInv num_samples (applyEv s e).1 := by
  cases e <;>
    first
      | exact h
      | exact ⟨Nat.le_refl 0, Nat.le_refl 0, Nat.zero_le num_samples⟩

lemma runningTick_statsInv (xs ys : Nat → ℚ) (num_samples batch_size : Nat)
    (s : FullState) (h : statsInv num_samples s) :
    statsInv num_samples (runningTick xs ys num_samples batch_size s) := by
  obtain ⟨h0, h1, h2⟩ := h
  rw [runningTick]
  by_cases hq : s.point_queue.length = 0
  · rw [if_pos hq]
    have hins := batchInsideSum_le xs ys s.samples_done (currentBatch num_samples batch_size s)
    have hc : currentBatch num_samples batch_size s ≤ num_samples - s.samples_done :=
      Nat.min_le_right _ _
    refine ⟨Nat.zero_le _, ?_, ?_⟩
    · show s.inside_total + batchInsideSum xs ys s.samples_done (currentBatch num_samples batch_size s)
        ≤ s.samples_done + currentBatch num_samples batch_size s
      omega
    · show s.samples_done + currentBatch num_samples batch_size s ≤ num_samples
      omega
  · rw [if_neg hq]
    exact ⟨Nat.zero_le _, h1, h2⟩

lemma applyEv_samples_le (num_samples : Nat) (s : FullState) (e : Ev)
    (h : s.samples_done ≤ num_samples) :
    ((applyEv s e).1).samples_done ≤ num_samples := by
  cases e <;> first | exact h | exact Nat.zero_le num_samples

lemma runningTick_samples_le (xs ys : Nat → ℚ) (num_samples batch_size : Nat)
    (s : FullState) (h : s.samples_done ≤ num_samples) :
    (runningTick xs ys num_samples batch_size s).samples_done ≤ num_samples := by
  rw [runningTick]
  by_cases hq : s.point_queue.length = 0
  · rw [if_pos hq]
    show s.samples_done + currentBatch num_samples batch_size s ≤ num_samples
    have hc : currentBatch num_samples batch_size s ≤ num_samples - s.samples_done :=
      Nat.min_le_right _ _
    omega
  · rw [if_neg hq]
    exact h

/-- If the loop exits through the `samples_done >= num_samples` branch and
the bound `samples_done ≤ num_samples` held on entry, the final count is
exactly `num_samples`. -/
lemma mcLoop_finished_exact (xs ys : Nat → ℚ) (num_samples batch_size : Nat) :
    ∀ (fuel : Nat) (s : FullState) (sched : List Ev),
      s.samples_done ≤ num_samples →
      (mcLoop xs ys num_samples batch_size fuel s sched).1.reason
        = some ExitReason.finished →
      (mcLoop xs ys num_samples batch_size fuel s sched).1.finalState.samples_done
        = num_samples := by
  intro fuel
  induction fuel with
  | zero =>
    intro s sched _ hr
    exact absurd hr (by simp [mcLoop, LoopOutcome.reason])
  | succ fuel ih =>
    intro s sched h hreason
    rw [mcLoop.eq_def] at hreason ⊢
    simp only [] at hreason ⊢
    by_cases hr : s.running = false
    · rw [if_pos hr] at hreason ⊢
      cases sched with
      | nil => exact ih s [] h hreason
      | cons e rest =>
        simp only [] at hreason ⊢
        by_cases hc : (applyEv s e).2
        · rw [if_pos hc] at hreason
          exact absurd hreason (by simp [LoopOutcome.reason])
        · rw [if_neg hc] at hreason ⊢
          exact ih _ rest (applyEv_samples_le num_samples s e h) hreason
    · rw [if_neg hr] at hreason ⊢
      by_cases hd : num_samples ≤ s.samples_done
      · rw [if_pos hd]
        show s.samples_done = num_samples
        omega
      · rw [if_neg hd] at hreason ⊢
        have ht := runningTick_samples_le xs ys num_samples batch_size s h
        cases sched with
        | nil => exact ih _ [] ht hreason
        | cons e rest =>
          simp only [] at hreason ⊢
          by_cases hc : (applyEv (runningTick xs ys num_samples batch_size s) e).2
          · rw [if_pos hc] at hreason
            exact absurd hreason (by simp [LoopOutcome.reason])
          · rw [if_neg hc] at hreason ⊢
            exact ih _ rest (applyEv_samples_le num_samples _ e ht) hreason

lemma applyEv_queueInv (s : FullState) (e : Ev) (h : queueInv s) :
    queueInv (applyEv s e).1 := by
  cases e
  case restart => exact fun hne => absurd rfl hne
  all_goals exact h

lemma runningTick_pos (xs ys : Nat → ℚ) (num_samples batch_size : Nat)
    (s : FullState) (hB : 1 ≤ batch_size) (hd : s.samples_done < num_samples)
    (h : queueInv s) :
    1 ≤ (runningTick xs ys num_samples batch_size s).samples_done ∧
      queueInv (runningTick xs ys num_samples batch_size s) := by
  rw [runningTick]
  by_cases hq : s.point_queue.length = 0
  · rw [if_pos hq]
    have h1 : 1 ≤ currentBatch num_samples batch_size s := by
      rw [currentBatch]
      omega
    constructor
    · show 1 ≤ s.samples_done + currentBatch num_samples batch_size s
      omega
    · intro _
      show 1 ≤ s.samples_done + currentBatch num_samples batch_size s
      omega
  · rw [if_neg hq]
    have hd1 : 1 ≤ s.samples_done := by
      apply h
      intro h0
      exact hq (by rw [h0]; rfl)
    exact ⟨hd1, fun _ => hd1⟩

/-- Every `samples_done` value recorded at a `pi_estimate` computation is
positive, provided the batch size is positive. -/
lemma mcLoop_estimates_pos (xs ys : Nat → ℚ) (num_samples batch_size : Nat)
    (hB : 1 ≤ batch_size) :
    ∀ (fuel : Nat) (s : FullState) (sched : List Ev), queueInv s →
      ∀ e ∈ (mcLoop xs ys num_samples batch_size fuel s sched).2, 1 ≤ e.2 := by
  intro fuel
  induction fuel with
  | zero =>
    intro s sched _ e he
    simp [mcLoop] at he
  | succ fuel ih =>
    intro s sched h e he
    rw [mcLoop.eq_def] at he
    simp only [] at he
    by_cases hr : s.running = false
    · rw [if_pos hr] at he
      cases sched with
      | nil => exact ih s [] h e he
      | cons ev rest =>
        simp only [] at he
        by_cases hc : (applyEv s ev).2
        · rw [if_pos hc] at he
          simp at he
        · rw [if_neg hc] at he
          exact ih _ rest (applyEv_queueInv s ev h) e he
    · rw [if_neg hr] at he
      by_cases hd : num_samples ≤ s.samples_done
      · rw [if_pos hd] at he
        simp at he
      · rw [if_neg hd] at he
        obtain ⟨hpos, hqi⟩ :=
          runningTick_pos xs ys num_samples batch_size s hB (by omega) h
        cases sched with
        | nil =>
          simp only [] at he
          rcases List.mem_cons.mp he with he1 | he2
          · rw [he1]
            exact hpos
          · exact ih _ [] hqi e he2
        | cons ev rest =>
          simp only [] at he
          by_cases hc : (applyEv (runningTick xs ys num_samples batch_size s) ev).2
          · rw [if_pos hc] at he
            rcases List.mem_singleton.mp he with he1
            rw [he1]
            exact hpos
          · rw [if_neg hc] at he
            rcases List.mem_cons.mp he with he1 | he2
            · rw [he1]
              exact hpos
            · exact ih _ rest (applyEv_queueInv _ ev hqi) e he2

/-!
## The claims
-/

/-- **C1.** For every valid `target_samples > 0`, a run whose loop exits
through the `Finished` branch ends with `samples_done = target_samples`
exactly — each batch is clamped to `min(batch_size, target_samples -
samples_done)`, so batching never overshoots; in particular, for
`target_samples = 250,000` with batch size 100,000 the produced batch sizes
are 100000, 100000, 50000 and the terminal `samples_done` is 250,000, for
every coordinate stream. -/
theorem finished_samples_exact (xs ys : Nat → ℚ) (num_samples batch_size fuel : Nat)
    (s : FullState) (sched : List Ev) (_hN : 0 < num_samples)
    (hle : s.samples_done ≤ num_samples)
    (hfin : (mcLoop xs ys num_samples batch_size fuel s sched).1.reason
      = some ExitReason.finished) :
    (mcLoop xs ys num_samples batch_size fuel s sched).1.finalState.samples_done
        = num_samples ∧
    batchSizes (mcLoop xs ys 250000 100000 10 initState [Ev.start]).2
        = [100000, 100000, 50000] ∧
    (mcLoop xs ys 250000 100000 10 initState [Ev.start]).1.reason
        = some ExitReason.finished ∧
    (mcLoop xs ys 250000 100000 10 initState [Ev.start]).1.finalState.samples_done
        = 250000 := by
  refine ⟨mcLoop_finished_exact xs ys num_samples batch_size fuel s sched hle hfin,
    ?_, ?_, ?_⟩
  · rw [mcLoop_log_eq]
    decide
  · rw [mcLoop_reason_eq]
    decide
  · rw [mcLoop_samples_eq]
    decide

/-- Witness for `finished_samples_exact` at `target = 1`, `batch = 1`. -/
theorem finished_samples_exact_witness :
    (mcLoop zeroStream zeroStream 1 1 5 initState [Ev.start]).1.finalState.samples_done
      = 1 :=
  (finished_samples_exact zeroStream zeroStream 1 1 5 initState [Ev.start]
    (by decide) (by decide) (by decide)).1

/-- **C2.** After every batch application
`0 ≤ inside_total ≤ samples_done ≤ target_samples`: the invariant holds in
the initial state, is preserved by every running tick and by every user
action, and a batch's inside count never exceeds the batch size. -/
theorem running_stats_invariant (num_samples : Nat) :
    statsInv num_samples initState ∧
    (∀ (xs ys : Nat → ℚ) (batch_size : Nat) (s : FullState),
      statsInv num_samples s →
      statsInv num_samples (runningTick xs ys num_samples batch_size s)) ∧
    (∀ (s : FullState) (e : Ev), statsInv num_samples s →
      statsInv num_samples (applyEv s e).1) ∧
    (∀ (xs ys : Nat → ℚ) (offset c : Nat), batchInsideSum xs ys offset c ≤ c) :=
  ⟨⟨Nat.le_refl 0, Nat.le_refl 0, Nat.zero_le _⟩,
    fun xs ys batch_size s h => runningTick_statsInv xs ys num_samples batch_size s h,
    fun s e h => applyEv_statsInv num_samples s e h,
    fun xs ys offset c => batchInsideSum_le xs ys offset c⟩

/-- Witness for `running_stats_invariant`: one running tick from the
just-started state with target 10 and batch size 4. -/
theorem running_stats_invariant_witness :
    statsInv 10 (runningTick zeroStream zeroStream 10 4 (startHandler initState)) :=
  (running_stats_invariant 10).2.1 zeroStream zeroStream 4 (startHandler initState)
    ⟨by decide, by decide, by decide⟩

/-- **C3 (counterexample).** In the run `target = 1`, `batch = 1` where the
user clicks START, lets one tick pass, then clicks RESTART: the loop exits
through the `Finished` break with the RESTART click still pending — it is
never processed (`samples_done` stays 1, no reset happens) — and the loop
terminates although the schedule contains no window-close event.  So after
`Finished` the restart action does not transition to Idle, and the process
does not wait for the user to close the window (lines 121–124 `break`
straight into `plt.close(fig)` at line 159). -/
theorem finished_ignores_pending_restart :
    (mcLoop zeroStream zeroStream 1 1 5 initState
        [Ev.start, Ev.idle, Ev.restart]).1.rest = [Ev.restart] ∧
    (mcLoop zeroStream zeroStream 1 1 5 initState
        [Ev.start, Ev.idle, Ev.restart]).1.reason = some ExitReason.finished ∧
    (mcLoop zeroStream zeroStream 1 1 5 initState
        [Ev.start, Ev.idle, Ev.restart]).1.finalState.samples_done = 1 ∧
    Ev.closeWindow ∉ [Ev.start, Ev.idle, Ev.restart] := by
  decide

/-- **C3 (amended).** Once `samples_done` reaches `target_samples`, the loop
sets `running` to false and breaks immediately: the state is otherwise
untouched (no further sampling, rendering stays as it was), no pending user
event is ever processed again (so stop/resume/restart have no effect after
`Finished`), the tick log ends, and the loop reports the `finished` exit —
after which the program closes the window itself (line 159) and exits with
code 0 without waiting for the user to close it. -/
theorem finished_is_terminal (xs ys : Nat → ℚ) (num_samples batch_size fuel : Nat)
    (s : FullState) (sched : List Ev) (hr : s.running = true)
    (hd : num_samples ≤ s.samples_done) :
    mcLoop xs ys num_samples batch_size (fuel + 1) s sched
      = (.exited { s with running := false } sched .finished, []) := by
  rw [mcLoop.eq_def]
  simp only []
  rw [if_neg (show ¬s.running = false by rw [hr]; exact fun h => nomatch h), if_pos hd]

/-- Witness for `finished_is_terminal` on a concrete exhausted state. -/
theorem finished_is_terminal_witness :
    mcLoop zeroStream zeroStream 5 1 3 doneState []
      = (.exited { doneState with running := false } [] .finished, []) :=
  finished_is_terminal zeroStream zeroStream 5 1 2 doneState [] rfl (by decide)

/-- **C4.** For every batch produced into an empty queue, with
`B = current_batch` and stride `max(1, B // 200)`: exactly
`ceil(B / max(1, B // 200))` points are enqueued, the enqueued points are a
sublist of the full batch (original relative order preserved, starting at
index 0), and the running statistics are updated from the full batch of `B`
points, not from the subsample. -/
theorem subsample_stride_spec (xs ys : Nat → ℚ) (num_samples batch_size : Nat)
    (s : FullState) (hq : s.point_queue = []) :
    (produceBatch xs ys num_samples batch_size s).point_queue.length
        = (currentBatch num_samples batch_size s
              + max 1 (currentBatch num_samples batch_size s / 200) - 1)
          / max 1 (currentBatch num_samples batch_size s / 200) ∧
    List.Sublist (produceBatch xs ys num_samples batch_size s).point_queue
      ((List.range (currentBatch num_samples batch_size s)).map
        (batchEntry xs ys s.samples_done)) ∧
    (produceBatch xs ys num_samples batch_size s).samples_done
        = s.samples_done + currentBatch num_samples batch_size s ∧
    (produceBatch xs ys num_samples batch_size s).inside_total
        = s.inside_total
            + batchInsideSum xs ys s.samples_done (currentBatch num_samples batch_size s) := by
  refine ⟨?_, ?_, rfl, rfl⟩
  · show (s.point_queue
        ++ batchSubsample xs ys s.samples_done (currentBatch num_samples batch_size s)).length = _
    rw [hq, List.nil_append, batchSubsample_length]
  · show List.Sublist
      (s.point_queue ++ batchSubsample xs ys s.samples_done (currentBatch num_samples batch_size s)) _
    rw [hq, List.nil_append]
    exact batchSubsample_sublist xs ys s.samples_done _

/-- Witness for `subsample_stride_spec` on a batch of 5 points. -/
theorem subsample_stride_spec_witness :
    (produceBatch zeroStream zeroStream 5 5 initState).point_queue.length
      = (currentBatch 5 5 initState + max 1 (currentBatch 5 5 initState / 200) - 1)
        / max 1 (currentBatch 5 5 initState / 200) :=
  (subsample_stride_spec zeroStream zeroStream 5 5 initState rfl).1

/-- **C5.** The restart action performs a full discard-and-reset from every
prior state: afterwards `samples_done = 0`, `inside_total = 0`, the
displayed points are empty, the display queue is empty, and the controller
is back in the Idle configuration (paused, only START visible, circle and
axes hidden). -/
theorem restart_full_reset (s : FullState) :
    (restartHandler s).samples_done = 0 ∧
    (restartHandler s).inside_total = 0 ∧
    (restartHandler s).disp_x = [] ∧
    (restartHandler s).disp_y = [] ∧
    (restartHandler s).disp_colors = [] ∧
    (restartHandler s).point_queue = [] ∧
    isIdleConfig (restartHandler s) ∧
    applyEv s Ev.restart = (restartHandler s, false) :=
  ⟨rfl, rfl, rfl, rfl, rfl, rfl, ⟨rfl, rfl, rfl, rfl, rfl, rfl, rfl⟩, rfl⟩

/-- **C6.** For `target_samples = 100,000` with the default batch size
(10,000), the sampler is invoked exactly 10 times before the run reaches
`Finished`, `samples_done` takes exactly the sequence
10000, 20000, …, 100000 at those invocations, and a tick whose display
queue is nonempty produces no batch (its `samples_done` is unchanged). -/
theorem default_run_hundred_thousand (xs ys : Nat → ℚ) :
    resolveBatchSize 100000 none = 10000 ∧
    samplesAfterBatch
        (mcLoop xs ys 100000 (resolveBatchSize 100000 none) 25 initState [Ev.start]).2
      = [10000, 20000, 30000, 40000, 50000, 60000, 70000, 80000, 90000, 100000] ∧
    (batchSizes
        (mcLoop xs ys 100000 (resolveBatchSize 100000 none) 25 initState [Ev.start]).2).length
      = 10 ∧
    (mcLoop xs ys 100000 (resolveBatchSize 100000 none) 25 initState [Ev.start]).1.reason
      = some ExitReason.finished ∧
    (∀ (num_samples batch_size : Nat) (s : FullState), s.point_queue ≠ [] →
      (runningTick xs ys num_samples batch_size s).samples_done = s.samples_done) := by
  refine ⟨rfl, ?_, ?_, ?_, ?_⟩
  · rw [mcLoop_log_eq]
    decide
  · rw [mcLoop_log_eq]
    decide
  · rw [mcLoop_reason_eq]
    decide
  · intro num_samples batch_size s hne
    rw [runningTick, if_neg (fun h0 => hne (List.length_eq_zero.mp h0))]
    rfl

/-- Witness for `default_run_hundred_thousand` (queue-nonempty tick). -/
theorem default_run_hundred_thousand_witness :
    (runningTick zeroStream zeroStream 10 4 doneState).samples_done
      = doneState.samples_done :=
  (default_run_hundred_thousand zeroStream zeroStream).2.2.2.2 10 4 doneState
    (by decide)

/-- **C7.** When `--batch` is not supplied, the batch size is a function of
the total requested samples `N`: 10,000 for `N ≤ 1,000,000`; 100,000 for
`N ≤ 10,000,000`; 1,000,000 for `N ≤ 100,000,000`; 5,000,000 for larger `N`;
a supplied `--batch` value is used as given. -/
theorem default_batch_size_table (num_samples : Nat) :
    (num_samples ≤ 1000000 → resolveBatchSize num_samples none = 10000) ∧
    (1000000 < num_samples → num_samples ≤ 10000000 →
      resolveBatchSize num_samples none = 100000) ∧
    (10000000 < num_samples → num_samples ≤ 100000000 →
      resolveBatchSize num_samples none = 1000000) ∧
    (100000000 < num_samples → resolveBatchSize num_samples none = 5000000) ∧
    (∀ b : Nat, resolveBatchSize num_samples (some b) = b) := by
  refine ⟨fun h1 => ?_, fun h1 h2 => ?_, fun h1 h2 => ?_, fun h1 => ?_, fun b => rfl⟩
  · simp only [resolveBatchSize]
    rw [if_pos h1]
  · simp only [resolveBatchSize]
    rw [if_neg (by omega), if_pos h2]
  · simp only [resolveBatchSize]
    rw [if_neg (by omega), if_neg (by omega), if_pos h2]
  · simp only [resolveBatchSize]
    rw [if_neg (by omega), if_neg (by omega), if_neg (by omega)]

/-- Witness for `default_batch_size_table` at the table boundaries. -/
theorem default_batch_size_table_witness :
    resolveBatchSize 1000000 none = 10000 ∧
    resolveBatchSize 10000000 none = 100000 ∧
    resolveBatchSize 100000000 none = 1000000 ∧
    resolveBatchSize 100000001 none = 5000000 :=
  ⟨(default_batch_size_table 1000000).1 (by decide),
    (default_batch_size_table 10000000).2.1 (by decide) (by decide),
    (default_batch_size_table 100000000).2.2.1 (by decide) (by decide),
    (default_batch_size_table 100000001).2.2.2.1 (by decide)⟩

/-- **C8.** `--samples` handling: commas and underscores are stripped before
parsing; when the result is not a positive integer (non-numeric or ≤ 0, e.g.
`"-5"`) the program reports exactly `"Invalid number of samples provided."`
and returns without starting a run; otherwise the run starts with the parsed
positive integer (e.g. `"1,000_000"` starts a run of 1,000,000 samples). -/
theorem samples_argument_validation :
    (∀ (arg : String) (b : Option Nat), pyInt? (stripSeparators arg) = none →
      main_model arg b = .invalid "Invalid number of samples provided.") ∧
    (∀ (arg : String) (b : Option Nat) (z : Int),
      pyInt? (stripSeparators arg) = some z → z ≤ 0 →
      main_model arg b = .invalid "Invalid number of samples provided.") ∧
    (∀ (arg : String) (b : Option Nat) (z : Int),
      pyInt? (stripSeparators arg) = some z → 0 < z →
      main_model arg b = .run z.toNat b) ∧
    main_model "-5" none = .invalid "Invalid number of samples provided." ∧
    main_model "1,000_000" none = .run 1000000 none := by
  refine ⟨?_, ?_, ?_, by decide, by decide⟩
  · intro arg b h
    rw [main_model, h]
  · intro arg b z h hz
    rw [main_model, h]
    simp only [if_pos hz]
  · intro arg b z h hz
    rw [main_model, h]
    simp only [if_neg (show ¬z ≤ 0 by omega)]

/-- Witness for `samples_argument_validation` on a non-numeric argument. -/
theorem samples_argument_validation_witness :
    main_model "abc" none = MainResult.invalid "Invalid number of samples provided." :=
  samples_argument_validation.1 "abc" none (by decide)

/-- **C9.** For every positive target and positive batch size, whenever the
running tick computes `pi_estimate = (inside_total / samples_done) * 4`, the
divisor `samples_done` is at least 1 (the first running tick produces a
batch of size `min(batch_size, num_samples) ≥ 1` before the estimate is
computed), so the division is never by zero: every `samples_done` value
recorded in the tick log of a run started from the initial state is
positive. -/
theorem estimate_divisor_positive (xs ys : Nat → ℚ)
    (num_samples batch_size fuel : Nat) (sched : List Ev)
    (_hN : 1 ≤ num_samples) (hB : 1 ≤ batch_size) :
    ∀ e ∈ (mcLoop xs ys num_samples batch_size fuel initState sched).2,
      1 ≤ e.2 ∧ ((e.2 : ℚ) ≠ 0) := by
  intro e he
  have h1 : 1 ≤ e.2 :=
    mcLoop_estimates_pos xs ys num_samples batch_size hB fuel initState sched
      (fun hne => absurd rfl hne) e he
  exact ⟨h1, Nat.cast_ne_zero.mpr (by omega)⟩

/-- Witness for `estimate_divisor_positive`: the single tick of the
`target = 1` run. -/
theorem estimate_divisor_positive_witness :
    1 ≤ ((some 1, 1) : Option Nat × Nat).2 ∧
      ((((some 1, 1) : Option Nat × Nat).2 : ℚ) ≠ 0) :=
  estimate_divisor_positive zeroStream zeroStream 1 1 3 [Ev.start]
    (by decide) (by decide) (some 1, 1) (by decide)

set_option maxRecDepth 100000 in
/-- **C10 (counterexample).** A run with `target_samples = 250` (the default
batch size for 250 samples is 10,000, so the single batch is clamped to 250
points; stride `max(1, 250 // 200) = 1`, so all 250 points are enqueued):
the loop drains 100 of them and exits on the exhaustion check, leaving 150
points — more than 100 — in the display queue, never rendered.  The claimed
"up to 100" bound on the lost points is therefore false. -/
theorem leftover_queue_exceeds_hundred :
    resolveBatchSize 250 none = 10000 ∧
    (mcLoop zeroStream zeroStream 250 10000 5 initState
        [Ev.start]).1.finalState.point_queue.length = 150 ∧
    (mcLoop zeroStream zeroStream 250 10000 5 initState
        [Ev.start]).1.finalState.disp_x.length = 100 ∧
    (mcLoop zeroStream zeroStream 250 10000 5 initState [Ev.start]).1.reason
      = some ExitReason.finished ∧
    ¬(150 ≤ 100) := by
  decide

/-- **C10 (amended).** The exhaustion check precedes the drain step: on the
first tick where `samples_done ≥ num_samples` the loop exits before
draining, so the points still in the display queue at that moment are never
moved to the displayed points and never rendered; the displayed lists are
left exactly as they were.  (The number of leftover points is not bounded by
100: it is 150 in the `target_samples = 250` run.) -/
theorem exhaustion_check_precedes_drain (xs ys : Nat → ℚ)
    (num_samples batch_size fuel : Nat) (s : FullState) (sched : List Ev)
    (hr : s.running = true) (hd : num_samples ≤ s.samples_done) :
    (mcLoop xs ys num_samples batch_size (fuel + 1) s sched).1.finalState.point_queue
        = s.point_queue ∧
    (mcLoop xs ys num_samples batch_size (fuel + 1) s sched).1.finalState.disp_x
        = s.disp_x ∧
    (mcLoop xs ys num_samples batch_size (fuel + 1) s sched).1.finalState.disp_y
        = s.disp_y ∧
    (mcLoop xs ys num_samples batch_size (fuel + 1) s sched).1.finalState.disp_colors
        = s.disp_colors ∧
    (mcLoop xs ys num_samples batch_size (fuel + 1) s sched).1.reason
        = some ExitReason.finished := by
  rw [mcLoop.eq_def]
  simp only []
  rw [if_neg (show ¬s.running = false by rw [hr]; exact fun h => nomatch h), if_pos hd]
  exact ⟨rfl, rfl, rfl, rfl, rfl⟩

/-- Witness for `exhaustion_check_precedes_drain` on a concrete exhausted
state with a nonempty queue. -/
theorem exhaustion_check_precedes_drain_witness :
    (mcLoop zeroStream zeroStream 5 1 3 doneState []).1.finalState.point_queue
      = doneState.point_queue :=
  (exhaustion_check_precedes_drain zeroStream zeroStream 5 1 2 doneState [] rfl
    (by decide)).1

